import Mathlib

/-!
Verification of the provider-orchestration core of opencode-usage-companion.

This file shallowly embeds, in Lean 4:
  * the pure aggregation phase of `fetch_account_quota` (src/providers/gemini.rs),
  * the classification/skip rules for catalog entries,
  * per-request timeout configuration of every HTTP call the providers issue,
  * the orchestration loop and exit-code logic of `main` (src/main.rs),
  * the Gemini multi-account fetch loop (`GeminiProvider::fetch`) and
    `AuthManager::is_provider_configured` (src/auth.rs),
and proves the specified properties about them.

Modelling conventions: Rust `f64` quota fractions are embedded as `ℚ`
(JSON cannot produce NaN/inf, and every value is clamped to [0,1]);
`DateTime<Utc>` timestamps are embedded as `ℤ` (seconds), with
`chrono::Duration::days(1)` as 86400; `chrono` timestamp parsing is an
external collaborator and is passed in as a function `parse : String → Option ℤ`;
`std::time::Duration` timeouts are embedded as `ℕ` seconds.
-/

/-! ## String helpers (Rust `to_lowercase`, `contains`, `starts_with`) -/

/-- Rust `s.to_lowercase()`, viewed as a character list. -/
def lowerStr (s : String) : List Char :=
  s.toList.map Char.toLower

/-- Does `needle` occur as a contiguous sublist of `hay`? -/
def infixCheck (needle : List Char) : List Char → Bool
  | [] => needle.isEmpty
  | c :: t => needle.isPrefixOf (c :: t) || infixCheck needle t

/-- Rust `haystack.contains(needle)` on already-lowercased haystacks. -/
def strContains (hay : List Char) (needle : String) : Bool :=
  infixCheck needle.toList hay

/-- Rust `haystack.starts_with(p)` on already-lowercased haystacks. -/
def strStartsWith (hay : List Char) (p : String) : Bool :=
  p.toList.isPrefixOf hay

/-! ## Gemini catalog data model (serde structs in gemini.rs) -/

/-- Struct `CloudCodeQuotaInfo` from gemini.rs: both fields optional in the wire format. -/
structure CloudCodeQuotaInfo where
  remaining_fraction : Option ℚ
  reset_time : Option String
deriving DecidableEq, Repr

/-- Struct `CloudCodeModelInfo` from gemini.rs (only the fields the aggregation reads). -/
structure CloudCodeModelInfo where
  display_name : Option String
  quota_info : Option CloudCodeQuotaInfo
deriving DecidableEq, Repr

/-- Struct `GeminiModelQuota` from providers/mod.rs. -/
structure GeminiModelQuota where
  model : String
  remaining_percent : ℚ
  reset_time : Option ℤ
deriving DecidableEq, Repr

/-- The four quota buckets of `fetch_account_quota`. -/
inductive Bucket where
  | claude
  | flash
  | pro
  | proImage
deriving DecidableEq, Repr

/-- Display labels of the four buckets, as pushed into the output list. -/
def bucketLabel : Bucket → String
  | .claude => "Claude Models"
  | .flash => "Gemini Flash"
  | .pro => "Gemini 3 Pro"
  | .proImage => "Gemini 3 Pro Image"

/-! ## The aggregation phase of `fetch_account_quota` (gemini.rs lines 262-359) -/

/-- gemini.rs line 274: `info.display_name.unwrap_or_else(|| model_key.clone())`. -/
def displayNameOf (kv : String × CloudCodeModelInfo) : String :=
  kv.2.display_name.getD kv.1

/-- gemini.rs line 278: filter of internal/test models
`lower_name.starts_with("chat_") || lower_name.starts_with("rev19")`. -/
def skipEntry (lower : List Char) : Bool :=
  strStartsWith lower "chat_" || strStartsWith lower "rev19"

/-- gemini.rs lines 291-302: the bucket-classification if-chain on the
lowercased display name (first match wins; unmatched names are dropped). -/
def classifyName (lower : List Char) : Option Bucket :=
  if strContains lower "claude" || strContains lower "gpt-oss" then
    some .claude
  else if strContains lower "gemini 3 pro image" then
    some .proImage
  else if strContains lower "gemini 3 pro" then
    some .pro
  else if strContains lower "gemini" && strContains lower "flash" && !strContains lower "2.5" then
    some .flash
  else
    none

/-- gemini.rs lines 282-284:
`quota_info.remaining_fraction.unwrap_or(0.0).clamp(0.0, 1.0) * 100.0`. -/
def entryPercent (qi : CloudCodeQuotaInfo) : ℚ :=
  (min 1 (max 0 ((qi.remaining_fraction).getD 0))) * 100

/-- gemini.rs lines 286-288:
`quota_info.reset_time.and_then(|t| t.parse().ok()).or_else(|| Some(now + 1 day))`.
The chrono parse is the external `parse` collaborator; 1 day = 86400 s. -/
def entryReset (parse : String → Option ℤ) (now : ℤ) (qi : CloudCodeQuotaInfo) : Option ℤ :=
  ((qi.reset_time).bind parse).or (some (now + 86400))

/-- The value `entryReset` always produces (the `.or` default makes it total). -/
def entryResetVal (parse : String → Option ℤ) (now : ℤ) (qi : CloudCodeQuotaInfo) : ℤ :=
  ((qi.reset_time).bind parse).getD (now + 86400)

/-- Mutable aggregation state of `fetch_account_quota`: the four bucket
variables, each `Option<(f64, Option<DateTime<Utc>>)>`. -/
structure AggState where
  claude : Option (ℚ × Option ℤ)
  flash : Option (ℚ × Option ℤ)
  pro : Option (ℚ × Option ℤ)
  proImage : Option (ℚ × Option ℤ)
deriving DecidableEq, Repr

/-- The initial state: all four buckets `None`. -/
def AggState.init : AggState :=
  ⟨none, none, none, none⟩

/-- gemini.rs lines 304-321: worst-case merge of one entry into a bucket
(keep minimum percent; keep earlier reset only when both are `Some`). -/
def updateBucket (b : Option (ℚ × Option ℤ)) (p : ℚ) (r : Option ℤ) : Option (ℚ × Option ℤ) :=
  match b with
  | some (p0, r0) =>
      let p1 := if p < p0 then p else p0
      let r1 :=
        match r, r0 with
        | some n, some o => if n < o then some n else some o
        | _, _ => r0
      some (p1, r1)
  | none => some (p, r)

/-- Apply `updateBucket` to the bucket component selected by `classifyName`. -/
def applyToBucket (s : AggState) (b : Bucket) (p : ℚ) (r : Option ℤ) : AggState :=
  match b with
  | .claude => { s with claude := updateBucket s.claude p r }
  | .flash => { s with flash := updateBucket s.flash p r }
  | .pro => { s with pro := updateBucket s.pro p r }
  | .proImage => { s with proImage := updateBucket s.proImage p r }

/-- One iteration of the `for (model_key, info) in models_map` loop
(gemini.rs lines 272-323). -/
def stepEntry (parse : String → Option ℤ) (now : ℤ) (s : AggState)
    (kv : String × CloudCodeModelInfo) : AggState :=
  match kv.2.quota_info with
  | none => s
  | some qi =>
      let lower := lowerStr (displayNameOf kv)
      if skipEntry lower then s
      else
        match classifyName lower with
        | some b => applyToBucket s b (entryPercent qi) (entryReset parse now qi)
        | none => s

/-- The whole catalog loop: fold `stepEntry` over the catalog entries in
iteration order (the `HashMap` iteration order is arbitrary, embedded here as
an explicit list of key-info pairs). -/
def aggState (parse : String → Option ℤ) (now : ℤ)
    (entries : List (String × CloudCodeModelInfo)) : AggState :=
  entries.foldl (stepEntry parse now) AggState.init

/-- gemini.rs lines 329-335 etc.: emit one `GeminiModelQuota` for a non-empty
bucket, nothing for an empty one. -/
def bucketOut (label : String) (b : Option (ℚ × Option ℤ)) : List GeminiModelQuota :=
  match b with
  | some (remaining, reset) => [⟨label, remaining, reset⟩]
  | none => []

/-- gemini.rs lines 327-359: convert the bucket state to the output model
list, in the fixed order Claude Models, Gemini Flash, Gemini 3 Pro,
Gemini 3 Pro Image. -/
def modelsOfState (s : AggState) : List GeminiModelQuota :=
  bucketOut "Claude Models" s.claude ++ bucketOut "Gemini Flash" s.flash ++
    bucketOut "Gemini 3 Pro" s.pro ++ bucketOut "Gemini 3 Pro Image" s.proImage

/-- The pure aggregation phase of `fetch_account_quota`: catalog entries in,
output model list out. -/
def aggregateModels (parse : String → Option ℤ) (now : ℤ)
    (entries : List (String × CloudCodeModelInfo)) : List GeminiModelQuota :=
  modelsOfState (aggState parse now entries)

/-! ## Spec-side description of the aggregation (from the specification text) -/

/-- The four buckets in the spec's fixed emission order: Claude Models,
Gemini Flash, Gemini 3 Pro, Gemini 3 Pro Image. -/
def bucketOrder : List Bucket :=
  [.claude, .flash, .pro, .proImage]

/-- A catalog entry contributes to bucket `b` when it has quota info, is not
skipped, and classifies to `b`. -/
def contributes (b : Bucket) (kv : String × CloudCodeModelInfo) : Bool :=
  match kv.2.quota_info with
  | none => false
  | some _ =>
      let lower := lowerStr (displayNameOf kv)
      !skipEntry lower && decide (classifyName lower = some b)

/-- Clamped percent of a catalog entry (0 when there is no quota info;
`contributes` only holds when there is). -/
def entryPct (kv : String × CloudCodeModelInfo) : ℚ :=
  match kv.2.quota_info with
  | some qi => entryPercent qi
  | none => 0

/-- Effective reset timestamp of a catalog entry (default `now + 24h`). -/
def entryRst (parse : String → Option ℤ) (now : ℤ)
    (kv : String × CloudCodeModelInfo) : ℤ :=
  match kv.2.quota_info with
  | some qi => entryResetVal parse now qi
  | none => now + 86400

/-- Spec-side output for one bucket: nothing when no entry contributes,
otherwise one entry whose percent is the minimum clamped percent and whose
reset is the earliest effective reset among contributing entries. -/
def specBucketModels (parse : String → Option ℤ) (now : ℤ)
    (entries : List (String × CloudCodeModelInfo)) (b : Bucket) : List GeminiModelQuota :=
  match entries.filter (contributes b) with
  | [] => []
  | e :: es =>
      [⟨bucketLabel b,
        es.foldl (fun a x => min a (entryPct x)) (entryPct e),
        some (es.foldl (fun a x => min a (entryRst parse now x)) (entryRst parse now e))⟩]

/-- Spec-side aggregation: one entry per non-empty bucket, in the fixed order. -/
def specModels (parse : String → Option ℤ) (now : ℤ)
    (entries : List (String × CloudCodeModelInfo)) : List GeminiModelQuota :=
  specBucketModels parse now entries .claude ++ specBucketModels parse now entries .flash ++
    specBucketModels parse now entries .pro ++ specBucketModels parse now entries .proImage

/-! ## Per-bucket characterization of the aggregation loop -/

/-- Project one bucket variable out of the aggregation state. -/
def bucketGet (s : AggState) : Bucket → Option (ℚ × Option ℤ)
  | .claude => s.claude
  | .flash => s.flash
  | .pro => s.pro
  | .proImage => s.proImage

/-- Folding `updateBucket` with the (always `some`) entry reset values. -/
def bucketFold (parse : String → Option ℤ) (now : ℤ)
    (l : List (String × CloudCodeModelInfo)) (init : Option (ℚ × Option ℤ)) :
    Option (ℚ × Option ℤ) :=
  l.foldl (fun acc kv => updateBucket acc (entryPct kv) (some (entryRst parse now kv))) init

lemma entryReset_eq_some (parse : String → Option ℤ) (now : ℤ) (qi : CloudCodeQuotaInfo) :
    entryReset parse now qi = some (entryResetVal parse now qi) := by
  unfold entryReset entryResetVal
  cases h : (qi.reset_time).bind parse <;> simp [Option.or]

lemma bucketGet_applyToBucket_eq (s : AggState) (b : Bucket) (p : ℚ) (r : Option ℤ) :
    bucketGet (applyToBucket s b p r) b = updateBucket (bucketGet s b) p r := by
  cases b <;> rfl

lemma bucketGet_applyToBucket_ne (s : AggState) (b c : Bucket) (p : ℚ) (r : Option ℤ)
    (h : b ≠ c) : bucketGet (applyToBucket s b p r) c = bucketGet s c := by
  cases b <;> cases c <;> first | rfl | exact absurd rfl h

lemma bucketGet_stepEntry (parse : String → Option ℤ) (now : ℤ) (s : AggState)
    (kv : String × CloudCodeModelInfo) (b : Bucket) :
    bucketGet (stepEntry parse now s kv) b =
      if contributes b kv then
        updateBucket (bucketGet s b) (entryPct kv) (some (entryRst parse now kv))
      else bucketGet s b := by
  unfold stepEntry contributes entryPct entryRst
  cases hq : kv.2.quota_info with
  | none => simp
  | some qi =>
      simp only
      by_cases hskip : skipEntry (lowerStr (displayNameOf kv)) = true
      · simp [hskip]
      · simp only [hskip, Bool.false_eq_true, if_false, Bool.not_false, Bool.true_and]
        cases hc : classifyName (lowerStr (displayNameOf kv)) with
        | none => simp
        | some c =>
            by_cases hbc : c = b
            · subst hbc
              simp [bucketGet_applyToBucket_eq, entryReset_eq_some]
            · simp [hbc, bucketGet_applyToBucket_ne _ _ _ _ _ hbc]

lemma bucketGet_foldl (parse : String → Option ℤ) (now : ℤ)
    (entries : List (String × CloudCodeModelInfo)) (s : AggState) (b : Bucket) :
    bucketGet (entries.foldl (stepEntry parse now) s) b =
      bucketFold parse now (entries.filter (contributes b)) (bucketGet s b) := by
  induction entries generalizing s with
  | nil => rfl
  | cons kv rest ih =>
      rw [List.foldl_cons, ih, List.filter_cons]
      by_cases h : contributes b kv = true
      · simp [h, bucketFold, bucketGet_stepEntry, List.foldl_cons]
      · simp only [Bool.not_eq_true] at h
        simp [h, bucketFold, bucketGet_stepEntry]

lemma ite_lt_eq_min {α : Type _} [LinearOrder α] (a b : α) :
    (if b < a then b else a) = min a b := by
  rcases le_or_lt a b with h | h
  · rw [if_neg (not_lt.mpr h), min_eq_left h]
  · rw [if_pos h, min_eq_right h.le]

lemma updateBucket_none (p : ℚ) (r : Option ℤ) :
    updateBucket none p r = some (p, r) :=
  rfl

lemma updateBucket_some_some (p0 : ℚ) (r0 : ℤ) (p : ℚ) (r : ℤ) :
    updateBucket (some (p0, some r0)) p (some r) = some (min p0 p, some (min r0 r)) := by
  show some (if p < p0 then p else p0, if r < r0 then some r else some r0) = _
  rw [ite_lt_eq_min, ← apply_ite Option.some, ite_lt_eq_min]

lemma updateBucket_some_none (p0 : ℚ) (p : ℚ) (r : ℤ) :
    updateBucket (some (p0, none)) p (some r) = some (min p0 p, none) := by
  show some (if p < p0 then p else p0, none) = _
  rw [ite_lt_eq_min]

lemma updateBucket_comm (b : Option (ℚ × Option ℤ)) (p1 p2 : ℚ) (r1 r2 : ℤ) :
    updateBucket (updateBucket b p1 (some r1)) p2 (some r2) =
      updateBucket (updateBucket b p2 (some r2)) p1 (some r1) := by
  match b with
  | none =>
      rw [updateBucket_none, updateBucket_none, updateBucket_some_some,
        updateBucket_some_some, min_comm p1 p2, min_comm r1 r2]
  | some (p0, none) =>
      rw [updateBucket_some_none, updateBucket_some_none, updateBucket_some_none,
        updateBucket_some_none, min_right_comm]
  | some (p0, some t0) =>
      rw [updateBucket_some_some, updateBucket_some_some, updateBucket_some_some,
        updateBucket_some_some, min_right_comm, min_right_comm t0 r1 r2]

lemma bucketFold_some (parse : String → Option ℤ) (now : ℤ)
    (l : List (String × CloudCodeModelInfo)) (a : ℚ) (t : ℤ) :
    bucketFold parse now l (some (a, some t)) =
      some (l.foldl (fun x kv => min x (entryPct kv)) a,
        some (l.foldl (fun x kv => min x (entryRst parse now kv)) t)) := by
  induction l generalizing a t with
  | nil => rfl
  | cons kv rest ih =>
      simp only [bucketFold, List.foldl_cons] at ih ⊢
      rw [updateBucket_some_some, ih]

lemma bucketFold_none_cons (parse : String → Option ℤ) (now : ℤ)
    (e : String × CloudCodeModelInfo) (l : List (String × CloudCodeModelInfo)) :
    bucketFold parse now (e :: l) none =
      some (l.foldl (fun x kv => min x (entryPct kv)) (entryPct e),
        some (l.foldl (fun x kv => min x (entryRst parse now kv)) (entryRst parse now e))) := by
  have h : bucketFold parse now (e :: l) none =
      bucketFold parse now l (some (entryPct e, some (entryRst parse now e))) := rfl
  rw [h, bucketFold_some]

lemma bucketGet_init (b : Bucket) : bucketGet AggState.init b = none := by
  cases b <;> rfl

lemma bucketOut_agg (parse : String → Option ℤ) (now : ℤ)
    (entries : List (String × CloudCodeModelInfo)) (b : Bucket) :
    bucketOut (bucketLabel b) (bucketGet (aggState parse now entries) b) =
      specBucketModels parse now entries b := by
  have h0 : aggState parse now entries = entries.foldl (stepEntry parse now) AggState.init := rfl
  rw [h0, bucketGet_foldl, bucketGet_init]
  unfold specBucketModels
  cases h : entries.filter (contributes b) with
  | nil => rfl
  | cons e es =>
      rw [bucketFold_none_cons]
      rfl

lemma aggregateModels_eq_spec (parse : String → Option ℤ) (now : ℤ)
    (entries : List (String × CloudCodeModelInfo)) :
    aggregateModels parse now entries = specModels parse now entries := by
  show bucketOut (bucketLabel .claude) (bucketGet (aggState parse now entries) .claude) ++
      bucketOut (bucketLabel .flash) (bucketGet (aggState parse now entries) .flash) ++
      bucketOut (bucketLabel .pro) (bucketGet (aggState parse now entries) .pro) ++
      bucketOut (bucketLabel .proImage) (bucketGet (aggState parse now entries) .proImage) = _
  rw [bucketOut_agg, bucketOut_agg, bucketOut_agg, bucketOut_agg]
  rfl

lemma bucketFold_perm (parse : String → Option ℤ) (now : ℤ)
    {l1 l2 : List (String × CloudCodeModelInfo)} (h : l1.Perm l2)
    (init : Option (ℚ × Option ℤ)) :
    bucketFold parse now l1 init = bucketFold parse now l2 init := by
  unfold bucketFold
  haveI : RightCommutative
      (fun acc kv => updateBucket acc (entryPct kv) (some (entryRst parse now kv))) :=
    ⟨fun s e1 e2 => updateBucket_comm s (entryPct e1) (entryPct e2)
      (entryRst parse now e1) (entryRst parse now e2)⟩
  exact h.foldl_eq init

lemma aggState_perm (parse : String → Option ℤ) (now : ℤ)
    {l1 l2 : List (String × CloudCodeModelInfo)} (h : l1.Perm l2) :
    aggState parse now l1 = aggState parse now l2 := by
  have hb : ∀ b, bucketGet (aggState parse now l1) b = bucketGet (aggState parse now l2) b := by
    intro b
    have h1 : aggState parse now l1 = l1.foldl (stepEntry parse now) AggState.init := rfl
    have h2 : aggState parse now l2 = l2.foldl (stepEntry parse now) AggState.init := rfl
    rw [h1, h2, bucketGet_foldl, bucketGet_foldl]
    exact bucketFold_perm parse now (h.filter (contributes b)) _
  have hc := hb .claude
  have hf := hb .flash
  have hp := hb .pro
  have hi := hb .proImage
  cases hs1 : aggState parse now l1 with
  | mk c1 f1 p1 i1 =>
      cases hs2 : aggState parse now l2 with
      | mk c2 f2 p2 i2 =>
          rw [hs1, hs2] at hc hf hp hi
          simp only [bucketGet] at hc hf hp hi
          rw [hc, hf, hp, hi]

/-! ## Spec-side classification (from the specification text) -/

/-- Spec text: skip entries whose display name (case-insensitive) starts with
"chat_" or "rev19". -/
def specSkip (name : String) : Bool :=
  strStartsWith (lowerStr name) "chat_" || strStartsWith (lowerStr name) "rev19"

/-- Spec text: classify by case-insensitive substring match, first match wins:
claude or gpt-oss; then gemini 3 pro image; then gemini 3 pro; then
gemini and flash and not 2.5; anything else dropped. -/
def specClassify (name : String) : Option Bucket :=
  let l := lowerStr name
  if strContains l "claude" || strContains l "gpt-oss" then
    some .claude
  else if strContains l "gemini 3 pro image" then
    some .proImage
  else if strContains l "gemini 3 pro" then
    some .pro
  else if strContains l "gemini" && strContains l "flash" && !strContains l "2.5" then
    some .flash
  else
    none

/-- Spec-side description of one aggregation step: skip, then classify, then
merge into the selected bucket. -/
def specStep (parse : String → Option ℤ) (now : ℤ) (s : AggState)
    (kv : String × CloudCodeModelInfo) : AggState :=
  match kv.2.quota_info with
  | none => s
  | some qi =>
      if specSkip (displayNameOf kv) then s
      else
        match specClassify (displayNameOf kv) with
        | some b => applyToBucket s b (entryPercent qi) (entryReset parse now qi)
        | none => s

/-- C1: for every catalog map, the Gemini aggregation emits exactly one entry
per non-empty bucket, in the fixed order Claude Models, Gemini Flash,
Gemini 3 Pro, Gemini 3 Pro Image (empty buckets emit nothing); each emitted
entry's remaining_percent is the minimum over contributing entries of
clamp(remainingFraction, 0, 1) × 100, and its reset_time is the earliest
effective reset among contributing entries. -/
theorem gemini_aggregation_minimum_and_order (parse : String → Option ℤ) (now : ℤ)
    (entries : List (String × CloudCodeModelInfo)) :
    aggregateModels parse now entries = specModels parse now entries :=
  aggregateModels_eq_spec parse now entries

/-- C2: each aggregation step skips names starting (case-insensitively) with
"chat_" or "rev19" and otherwise classifies by the spec's first-match-wins
substring rules; in particular "Gemini 2.5 Flash" is dropped,
"Gemini 3 Pro Image Preview" lands in the Image bucket, and the named
internal/test models are skipped. -/
theorem gemini_classification_matches_spec :
    (∀ (parse : String → Option ℤ) (now : ℤ) (s : AggState)
        (kv : String × CloudCodeModelInfo),
      stepEntry parse now s kv = specStep parse now s kv) ∧
    classifyName (lowerStr "Gemini 2.5 Flash") = none ∧
    classifyName (lowerStr "Gemini 3 Pro Image Preview") = some .proImage ∧
    classifyName (lowerStr "Claude Sonnet 4.5") = some .claude ∧
    classifyName (lowerStr "GPT-OSS 120B") = some .claude ∧
    classifyName (lowerStr "Gemini 3 Flash") = some .flash ∧
    skipEntry (lowerStr "chat_test") = true ∧
    skipEntry (lowerStr "rev1955-x") = true := by
  refine ⟨fun parse now s kv => rfl, ?_, ?_, ?_, ?_, ?_, ?_, ?_⟩ <;> decide

/-- C3: the aggregation is order-independent — permuting the catalog map does
not change the resulting model list. -/
theorem gemini_aggregation_order_independent (parse : String → Option ℤ) (now : ℤ)
    {l1 l2 : List (String × CloudCodeModelInfo)} (h : l1.Perm l2) :
    aggregateModels parse now l1 = aggregateModels parse now l2 := by
  show modelsOfState (aggState parse now l1) = modelsOfState (aggState parse now l2)
  rw [aggState_perm parse now h]

/-- Concrete catalog entries used by witnesses. -/
def witEntryPro : String × CloudCodeModelInfo :=
  ("models/g3pro", ⟨some "Gemini 3 Pro", some ⟨some (1/2), none⟩⟩)

/-- A second concrete entry, in the same bucket but with no remainingFraction. -/
def witEntryProNoFrac : String × CloudCodeModelInfo :=
  ("models/g3pro-preview", ⟨some "Gemini 3 Pro Preview", some ⟨none, none⟩⟩)

/-- A concrete Claude-bucket entry. -/
def witEntryClaude : String × CloudCodeModelInfo :=
  ("models/claude", ⟨some "Claude Sonnet 4.5", some ⟨some (7/10), none⟩⟩)

/-- Witness for C3 at a concrete two-entry catalog and its swap. -/
theorem gemini_aggregation_order_independent_witness :
    aggregateModels (fun _ => none) 0 [witEntryPro, witEntryClaude] =
      aggregateModels (fun _ => none) 0 [witEntryClaude, witEntryPro] :=
  gemini_aggregation_order_independent (fun _ => none) 0
    (List.Perm.swap witEntryClaude witEntryPro [])

/-! ## Minimum-fold facts, for the missing-fraction claim -/

lemma foldl_min_le_init {α : Type _} [LinearOrder α] (l : List α) (a : α) :
    l.foldl min a ≤ a := by
  induction l generalizing a with
  | nil => exact le_refl a
  | cons x t ih => exact le_trans (ih (min a x)) (min_le_left a x)

lemma foldl_min_le_mem {α : Type _} [LinearOrder α] :
    ∀ (l : List α) (a x : α), x ∈ l → l.foldl min a ≤ x
  | [], _, _, hx => absurd hx (List.not_mem_nil _)
  | y :: t, a, x, hx => by
      rcases List.mem_cons.mp hx with h | h
      · subst h
        exact le_trans (foldl_min_le_init t (min a x)) (min_le_right a x)
      · exact foldl_min_le_mem t (min a y) x h

lemma le_foldl_min {α : Type _} [LinearOrder α] :
    ∀ (l : List α) (a c : α), c ≤ a → (∀ x ∈ l, c ≤ x) → c ≤ l.foldl min a
  | [], _, _, ha, _ => ha
  | y :: t, a, c, ha, hl => by
      refine le_foldl_min t (min a y) c (le_min ha (hl y (List.mem_cons_self y t))) ?_
      exact fun x hx => hl x (List.mem_cons_of_mem y hx)

lemma entryPct_nonneg (kv : String × CloudCodeModelInfo) : 0 ≤ entryPct kv := by
  unfold entryPct
  cases kv.2.quota_info with
  | none => exact le_refl 0
  | some qi =>
      have h1 : (0 : ℚ) ≤ min 1 (max 0 ((qi.remaining_fraction).getD 0)) :=
        le_min (by norm_num) (le_max_left 0 _)
      exact mul_nonneg h1 (by norm_num)

lemma entryPct_none_eq_zero {kv : String × CloudCodeModelInfo} {qi : CloudCodeQuotaInfo}
    (hq : kv.2.quota_info = some qi) (hf : qi.remaining_fraction = none) :
    entryPct kv = 0 := by
  have h1 : entryPct kv = entryPercent qi := by
    unfold entryPct
    rw [hq]
  rw [h1]
  unfold entryPercent
  rw [hf]
  norm_num

lemma mem_modelsOfState {s : AggState} {b : Bucket} {p : ℚ} {r : Option ℤ}
    (h : bucketGet s b = some (p, r)) :
    (⟨bucketLabel b, p, r⟩ : GeminiModelQuota) ∈ modelsOfState s := by
  cases b <;>
    · simp only [bucketGet] at h
      simp [modelsOfState, bucketOut, h, bucketLabel]

/-- C9: an entry carrying quotaInfo but no remainingFraction is aggregated
with fraction 0 (not skipped); one such entry in a bucket forces that
bucket's emitted remaining_percent to 0. -/
theorem gemini_missing_fraction_forces_zero (parse : String → Option ℤ) (now : ℤ)
    (entries : List (String × CloudCodeModelInfo)) (kv : String × CloudCodeModelInfo)
    (qi : CloudCodeQuotaInfo) (b : Bucket)
    (hmem : kv ∈ entries) (hq : kv.2.quota_info = some qi)
    (hf : qi.remaining_fraction = none) (hcon : contributes b kv = true) :
    ∃ r : ℤ, bucketGet (aggState parse now entries) b = some (0, some r) ∧
      (⟨bucketLabel b, 0, some r⟩ : GeminiModelQuota) ∈ aggregateModels parse now entries := by
  have hfull : aggState parse now entries = entries.foldl (stepEntry parse now) AggState.init := rfl
  have hmf : kv ∈ entries.filter (contributes b) := List.mem_filter.mpr ⟨hmem, hcon⟩
  have hzero : entryPct kv = 0 := entryPct_none_eq_zero hq hf
  cases hfl : entries.filter (contributes b) with
  | nil =>
      rw [hfl] at hmf
      cases hmf
  | cons e es =>
      rw [hfl] at hmf
      have hproj : bucketGet (aggState parse now entries) b =
          some (es.foldl (fun x y => min x (entryPct y)) (entryPct e),
            some (es.foldl (fun x y => min x (entryRst parse now y)) (entryRst parse now e))) := by
        rw [hfull, bucketGet_foldl, bucketGet_init, hfl, bucketFold_none_cons]
      have hmap : es.foldl (fun x y => min x (entryPct y)) (entryPct e) =
          (es.map entryPct).foldl min (entryPct e) := by
        rw [List.foldl_map]
      have hle : es.foldl (fun x y => min x (entryPct y)) (entryPct e) ≤ 0 := by
        rw [hmap, ← hzero]
        rcases List.mem_cons.mp hmf with h | h
        · rw [← h]
          exact foldl_min_le_init _ _
        · exact foldl_min_le_mem _ _ _ (List.mem_map_of_mem entryPct h)
      have hge : (0 : ℚ) ≤ es.foldl (fun x y => min x (entryPct y)) (entryPct e) := by
        rw [hmap]
        refine le_foldl_min _ _ _ (entryPct_nonneg e) (fun x hx => ?_)
        rcases List.mem_map.mp hx with ⟨y, _, hxy⟩
        rw [← hxy]
        exact entryPct_nonneg y
      have hm0 : es.foldl (fun x y => min x (entryPct y)) (entryPct e) = 0 :=
        le_antisymm hle hge
      refine ⟨es.foldl (fun x y => min x (entryRst parse now y)) (entryRst parse now e), ?_, ?_⟩
      · rw [hproj, hm0]
      · exact mem_modelsOfState (by rw [hproj, hm0])

/-- Witness for C9: a single Gemini 3 Pro entry with quotaInfo but no
remainingFraction yields a Gemini 3 Pro bucket at 0 percent. -/
theorem gemini_missing_fraction_forces_zero_witness :
    ∃ r : ℤ, bucketGet (aggState (fun _ => none) 0 [witEntryProNoFrac]) .pro = some (0, some r) ∧
      (⟨bucketLabel .pro, 0, some r⟩ : GeminiModelQuota) ∈
        aggregateModels (fun _ => none) 0 [witEntryProNoFrac] :=
  gemini_missing_fraction_forces_zero (fun _ => none) 0 [witEntryProNoFrac] witEntryProNoFrac
    ⟨none, none⟩ .pro (by simp) rfl rfl (by decide)

/-! ## Fetch orchestrator (src/main.rs lines 90-196)

Providers are embedded with deterministic fetch results: `fetchResult` is the
value `provider.fetch(timeout, verbose)` would settle to. The payload type is
a parameter `δ` standing for the success variants of `ProviderData`. -/

/-- One outcome in the result set: a success payload, or the
`ProviderData::Failed { provider, error }` variant. -/
inductive OutcomeSim (δ : Type) where
  | data (d : δ)
  | failed (provider : String) (error : String)
deriving Repr

/-- A provider as the orchestrator sees it: its name, its `is_configured()`
answer, and its deterministic fetch result. -/
structure ProviderSim (δ : Type) where
  name : String
  configured : Bool
  fetchResult : Except String δ

/-- Conversion of one provider's fetch result into its result-set entry
(main.rs lines 157-170 and 123-126, 132-147). -/
def outcomeOf {δ : Type} (p : ProviderSim δ) : OutcomeSim δ :=
  match p.fetchResult with
  | .ok d => .data d
  | .error e => .failed p.name e

/-- One iteration of the sequential fetch loop: skip an unconfigured
provider; push the outcome and raise has_errors on failure. -/
def seqStep {δ : Type} (acc : List (OutcomeSim δ) × Bool) (p : ProviderSim δ) :
    List (OutcomeSim δ) × Bool :=
  if p.configured then
    match p.fetchResult with
    | .ok d => (acc.1 ++ [OutcomeSim.data d], acc.2)
    | .error e => (acc.1 ++ [OutcomeSim.failed p.name e], true)
  else acc

/-- The sequential fetch loop of main (lines 149-173): `(results, has_errors)`. -/
def sequentialFetch {δ : Type} (ps : List (ProviderSim δ)) :
    List (OutcomeSim δ) × Bool :=
  ps.foldl seqStep ([], false)

/-- Is this result-set entry the `Failed` variant? -/
def isFailedOutcome {δ : Type} : OutcomeSim δ → Bool
  | .failed _ _ => true
  | .data _ => false

lemma sequentialFetch_foldl {δ : Type} (ps : List (ProviderSim δ))
    (acc : List (OutcomeSim δ) × Bool) :
    ps.foldl seqStep acc =
      (acc.1 ++ (ps.filter (fun p => p.configured)).map outcomeOf,
        acc.2 || ((ps.filter (fun p => p.configured)).map outcomeOf).any isFailedOutcome) := by
  induction ps generalizing acc with
  | nil => simp
  | cons p rest ih =>
      rw [List.foldl_cons, ih, List.filter_cons]
      by_cases hc : p.configured = true
      · simp only [hc, if_true]
        cases hf : p.fetchResult with
        | ok d =>
            simp [seqStep, hc, hf, outcomeOf, isFailedOutcome]
        | error e =>
            simp [seqStep, hc, hf, outcomeOf, isFailedOutcome]
      · simp only [Bool.not_eq_true] at hc
        simp [seqStep, hc]

lemma sequentialFetch_results {δ : Type} (ps : List (ProviderSim δ)) :
    (sequentialFetch ps).1 = (ps.filter (fun p => p.configured)).map outcomeOf := by
  unfold sequentialFetch
  rw [sequentialFetch_foldl]
  simp

lemma sequentialFetch_hasErrors {δ : Type} (ps : List (ProviderSim δ)) :
    (sequentialFetch ps).2 =
      ((ps.filter (fun p => p.configured)).map outcomeOf).any isFailedOutcome := by
  unfold sequentialFetch
  rw [sequentialFetch_foldl]
  simp

/-- The five terminal conditions named by the spec. -/
inductive ExitCondition where
  | noProvidersSpecified
  | noneConfigured
  | allFailed
  | partialSuccess
  | fullSuccess
deriving DecidableEq, Repr

/-- Which terminal condition a run with these providers lands in. -/
def conditionOf {δ : Type} (ps : List (ProviderSim δ)) : ExitCondition :=
  if ps.isEmpty then .noProvidersSpecified
  else if ps.countP (fun p => p.configured) = 0 then .noneConfigured
  else if ((sequentialFetch ps).1).all isFailedOutcome then .allFailed
  else if ((sequentialFetch ps).1).any isFailedOutcome then .partialSuccess
  else .fullSuccess

/-- main.rs exit-code logic (lines 90-103, 175-196): 2 when no providers were
built or none is configured; 1 when the result set is empty or all entries
failed; after rendering, 1 when has_errors and 0 otherwise. -/
def mainExitCode {δ : Type} (ps : List (ProviderSim δ)) : ℕ :=
  if ps.isEmpty then 2
  else if ps.countP (fun p => p.configured) = 0 then 2
  else if ((sequentialFetch ps).1).isEmpty then 1
  else if ((sequentialFetch ps).1).all isFailedOutcome then 1
  else if (sequentialFetch ps).2 then 1
  else 0

/-- Does main reach `format_output` (main.rs line 189), i.e. not abort before
rendering? -/
def rendersOutput {δ : Type} (ps : List (ProviderSim δ)) : Bool :=
  if ps.isEmpty then false
  else if ps.countP (fun p => p.configured) = 0 then false
  else if ((sequentialFetch ps).1).isEmpty then false
  else if ((sequentialFetch ps).1).all isFailedOutcome then false
  else true

/-- Exit codes the five conditions actually map to: 2, 2, 1, 1, 0. -/
def specExitCode : ExitCondition → ℕ
  | .noProvidersSpecified => 2
  | .noneConfigured => 2
  | .allFailed => 1
  | .partialSuccess => 1
  | .fullSuccess => 0

lemma results_not_empty_of_not_all {δ : Type} (ps : List (ProviderSim δ))
    (h : ¬ ((sequentialFetch ps).1).all isFailedOutcome = true) :
    ((sequentialFetch ps).1).isEmpty = false := by
  cases hres : (sequentialFetch ps).1 with
  | nil => exact absurd (by rw [hres]; rfl) h
  | cons x t => rfl

/-- C5 amended: the five terminal conditions map to exit codes 2, 2, 1, 1, 0
respectively — conditions (a) and (b) share code 2, conditions (c) and (d)
share code 1, and (e) gets 0; the three groups are mutually distinct but the
five conditions are not pairwise distinguished. -/
theorem exit_code_of_condition (δ : Type) (ps : List (ProviderSim δ)) :
    mainExitCode ps = specExitCode (conditionOf ps) := by
  unfold mainExitCode conditionOf
  by_cases h1 : ps.isEmpty
  · simp [h1, specExitCode]
  · by_cases h2 : ps.countP (fun p => p.configured) = 0
    · simp [h1, h2, specExitCode]
    · by_cases h3 : ((sequentialFetch ps).1).all isFailedOutcome = true
      · by_cases h4 : ((sequentialFetch ps).1).isEmpty = true
        · simp [h1, h2, h3, h4, specExitCode]
        · simp [h1, h2, h3, h4, specExitCode]
      · have h4 := results_not_empty_of_not_all ps h3
        by_cases h5 : ((sequentialFetch ps).1).any isFailedOutcome = true
        · have h6 : (sequentialFetch ps).2 = true := by
            rw [sequentialFetch_hasErrors, ← sequentialFetch_results]
            exact h5
          simp [h1, h2, h3, h4, h5, h6, specExitCode]
        · simp only [Bool.not_eq_true] at h5
          have h6 : (sequentialFetch ps).2 = false := by
            rw [sequentialFetch_hasErrors, ← sequentialFetch_results]
            exact h5
          simp [h1, h2, h3, h4, h5, h6, specExitCode]

/-- A provider that is not configured. -/
def provUnconfigured : ProviderSim Unit :=
  ⟨"gemini", false, .error "unconfigured"⟩

/-- A configured provider whose fetch deterministically fails. -/
def provFailing : ProviderSim Unit :=
  ⟨"codex", true, .error "boom"⟩

/-- A configured provider whose fetch deterministically succeeds. -/
def provOk : ProviderSim Unit :=
  ⟨"claude", true, .ok ()⟩

/-- A second configured provider whose fetch deterministically succeeds. -/
def provOk2 : ProviderSim Unit :=
  ⟨"copilot", true, .ok ()⟩

/-- C5 counterexample: conditions (a) no providers specified and (b) none
configured both exit with code 2, and conditions (c) all failed and
(d) partial success both exit with code 1 — the five conditions do not get
pairwise-distinct exit codes. -/
theorem exit_codes_share_counterexample :
    conditionOf ([] : List (ProviderSim Unit)) = ExitCondition.noProvidersSpecified ∧
    conditionOf [provUnconfigured] = ExitCondition.noneConfigured ∧
    mainExitCode ([] : List (ProviderSim Unit)) = 2 ∧
    mainExitCode [provUnconfigured] = 2 ∧
    conditionOf [provFailing] = ExitCondition.allFailed ∧
    conditionOf [provOk, provFailing] = ExitCondition.partialSuccess ∧
    mainExitCode [provFailing] = 1 ∧
    mainExitCode [provOk, provFailing] = 1 := by
  refine ⟨rfl, rfl, rfl, rfl, ?_, ?_, ?_, ?_⟩ <;> rfl

/-- C7: the orchestrator emits exactly one outcome per configured provider, in
request order, converting failures into tagged Failure entries; with three
configured providers of which exactly the middle one errors, the result set
has exactly 3 entries (2 successes, 1 failure tagged with that provider's
name), the overall condition is partial success, and output is still
rendered (no total abort). -/
theorem orchestrator_partial_failure (δ : Type) :
    (∀ ps : List (ProviderSim δ),
        (sequentialFetch ps).1 = (ps.filter (fun p => p.configured)).map outcomeOf) ∧
    (∀ (a b c : ProviderSim δ) (d1 d3 : δ) (e : String),
      a.configured = true → b.configured = true → c.configured = true →
      a.fetchResult = .ok d1 → b.fetchResult = .error e → c.fetchResult = .ok d3 →
      (sequentialFetch [a, b, c]).1 =
          [OutcomeSim.data d1, OutcomeSim.failed b.name e, OutcomeSim.data d3] ∧
        ((sequentialFetch [a, b, c]).1).length = 3 ∧
        conditionOf [a, b, c] = ExitCondition.partialSuccess ∧
        rendersOutput [a, b, c] = true) := by
  constructor
  · exact sequentialFetch_results
  · intro a b c d1 d3 e ha hb hc hda hdb hdc
    have hres : (sequentialFetch [a, b, c]).1 =
        [OutcomeSim.data d1, OutcomeSim.failed b.name e, OutcomeSim.data d3] := by
      rw [sequentialFetch_results]
      simp [List.filter, ha, hb, hc, outcomeOf, hda, hdb, hdc]
    refine ⟨hres, by rw [hres]; rfl, ?_, ?_⟩
    · unfold conditionOf
      rw [hres]
      simp [ha, hb, hc, isFailedOutcome, List.countP_cons]
    · unfold rendersOutput
      rw [hres]
      simp [ha, hb, hc, isFailedOutcome, List.countP_cons]

/-- Witness for C7 at three concrete providers with the middle one failing. -/
theorem orchestrator_partial_failure_witness :
    (sequentialFetch [provOk, provFailing, provOk2]).1 =
        [OutcomeSim.data (), OutcomeSim.failed "codex" "boom", OutcomeSim.data ()] ∧
      ((sequentialFetch [provOk, provFailing, provOk2]).1).length = 3 ∧
      conditionOf [provOk, provFailing, provOk2] = ExitCondition.partialSuccess ∧
      rendersOutput [provOk, provFailing, provOk2] = true :=
  (orchestrator_partial_failure Unit).2 provOk provFailing provOk2 () () "boom"
    rfl rfl rfl rfl rfl rfl

/-! ## Concurrent mode (main.rs lines 115-148)

`futures::future::join_all` pre-allocates one slot per task and writes each
task's outcome into that task's own slot when it completes; the gathered
vector is read off in task order. A completion schedule is a permutation of
the task indices; each completion event carries its task's (deterministic)
outcome. -/

/-- Completion events (index, outcome) in completion order. -/
def completionEvents {δ : Type} (tasks : List (OutcomeSim δ)) (order : List ℕ) :
    List (ℕ × OutcomeSim δ) :=
  order.map (fun i => (i, tasks.getD i (OutcomeSim.failed "" "")))

/-- Pre-allocated per-task slots, each written when its event completes. -/
def fillSlots {δ : Type} (n : ℕ) (events : List (ℕ × OutcomeSim δ)) :
    List (Option (OutcomeSim δ)) :=
  events.foldl (fun acc ev => acc.set ev.1 (some ev.2)) (List.replicate n none)

/-- Concurrent fetch under a given completion schedule: filter configured
providers, gather every outcome into its index-addressed slot, read the
slots off in order. -/
def concurrentFetch {δ : Type} (ps : List (ProviderSim δ)) (order : List ℕ) :
    List (OutcomeSim δ) :=
  (fillSlots ((ps.filter (fun p => p.configured)).map outcomeOf).length
    (completionEvents ((ps.filter (fun p => p.configured)).map outcomeOf) order)).filterMap id

lemma foldl_set_length {δ : Type} (events : List (ℕ × OutcomeSim δ)) :
    ∀ acc : List (Option (OutcomeSim δ)),
      (events.foldl (fun a ev => a.set ev.1 (some ev.2)) acc).length = acc.length := by
  induction events with
  | nil => intro acc; rfl
  | cons e rest ih =>
      intro acc
      rw [List.foldl_cons, ih, List.length_set]

lemma foldl_set_getElem {δ : Type} (v : ℕ → OutcomeSim δ) :
    ∀ (events : List (ℕ × OutcomeSim δ)) (acc : List (Option (OutcomeSim δ))) (j : ℕ),
      (∀ e ∈ events, e.2 = v e.1) → j < acc.length →
      (events.foldl (fun a ev => a.set ev.1 (some ev.2)) acc)[j]? =
        (if events.any (fun e => e.1 == j) then some (some (v j)) else acc[j]?)
  | [], acc, j, _, _ => by simp
  | e :: rest, acc, j, hv, hj => by
      rw [List.foldl_cons,
        foldl_set_getElem v rest (acc.set e.1 (some e.2)) j
          (fun x hx => hv x (List.mem_cons_of_mem e hx))
          (by rw [List.length_set]; exact hj)]
      by_cases hrest : rest.any (fun x => x.1 == j) = true
      · simp [hrest]
      · simp only [Bool.not_eq_true] at hrest
        by_cases hej : e.1 = j
        · subst hej
          have he2 : e.2 = v e.1 := hv e (List.mem_cons_self e rest)
          simp [hrest, List.any_cons, List.getElem?_set_self hj, he2]
        · have hne : (e.1 == j) = false := by
            simp [hej]
          simp [hrest, List.any_cons, hne, List.getElem?_set_ne hej]

lemma fillSlots_eq {δ : Type} (tasks : List (OutcomeSim δ)) (order : List ℕ)
    (h : order.Perm (List.range tasks.length)) :
    fillSlots tasks.length (completionEvents tasks order) = tasks.map some := by
  have hlen : (fillSlots tasks.length (completionEvents tasks order)).length = tasks.length := by
    unfold fillSlots
    rw [foldl_set_length, List.length_replicate]
  apply List.ext_getElem?
  intro j
  by_cases hj : j < tasks.length
  · unfold fillSlots completionEvents
    rw [foldl_set_getElem (fun i => tasks.getD i (OutcomeSim.failed "" ""))
      _ _ j
      (by
        intro e he
        rcases List.mem_map.mp he with ⟨i, _, rfl⟩
        rfl)
      (by rw [List.length_replicate]; exact hj)]
    have hany : ((order.map (fun i => (i, tasks.getD i (OutcomeSim.failed "" "")))).any
        (fun e => e.1 == j)) = true := by
      rw [List.any_eq_true]
      refine ⟨(j, tasks.getD j (OutcomeSim.failed "" "")), ?_, by simp⟩
      exact List.mem_map.mpr ⟨j, h.mem_iff.mpr (List.mem_range.mpr hj), rfl⟩
    rw [if_pos hany, List.getElem?_map, List.getElem?_eq_getElem hj]
    simp [List.getD_eq_getElem?_getD, List.getElem?_eq_getElem hj]
  · have h1 : (fillSlots tasks.length (completionEvents tasks order))[j]? = none := by
      rw [List.getElem?_eq_none]
      rw [hlen]
      omega
    have h2 : (tasks.map some)[j]? = none := by
      rw [List.getElem?_eq_none]
      rw [List.length_map]
      omega
    rw [h1, h2]

lemma filterMap_id_map_some {δ : Type} (l : List (OutcomeSim δ)) :
    (l.map some).filterMap id = l := by
  induction l with
  | nil => rfl
  | cons x t ih => simp [ih]

/-- C8: for deterministic fetch results, concurrent mode yields exactly the
sequential result set — the same entries in the same order, namely the
request order of the configured providers — for every completion schedule. -/
theorem sequential_concurrent_equivalent (δ : Type) (ps : List (ProviderSim δ))
    (order : List ℕ)
    (h : order.Perm (List.range ((ps.filter (fun p => p.configured)).length))) :
    concurrentFetch ps order = (sequentialFetch ps).1 ∧
      (sequentialFetch ps).1 = (ps.filter (fun p => p.configured)).map outcomeOf := by
  refine ⟨?_, sequentialFetch_results ps⟩
  unfold concurrentFetch
  rw [fillSlots_eq _ _ (by rw [List.length_map]; exact h)]
  rw [sequentialFetch_results, filterMap_id_map_some]

/-- Witness for C8 with two configured providers and the reversed completion
schedule. -/
theorem sequential_concurrent_equivalent_witness :
    concurrentFetch [provOk, provFailing] [1, 0] = (sequentialFetch [provOk, provFailing]).1 ∧
      (sequentialFetch [provOk, provFailing]).1 =
        (([provOk, provFailing]).filter (fun p => p.configured)).map outcomeOf :=
  sequential_concurrent_equivalent Unit [provOk, provFailing] [1, 0] (by decide)

/-! ## Per-HTTP-call timeout configuration (C4)

Each provider's fetch builds requests with an explicit `.timeout(...)` on the
request builder. The functions below record, per HTTP call the code can
issue, the URL and the timeout that the builder sets, as a function of the
caller-supplied timeout (in seconds). -/

/-- A request as configured on the reqwest builder: URL and timeout. -/
structure RequestSpec where
  url : String
  timeoutSecs : ℕ
deriving DecidableEq, Repr

/-- gemini.rs lines 87-107: `refresh_access_token` builds its POST with the
fixed `Duration::from_secs(10)`; the function does not even receive the
caller-supplied timeout. -/
def refreshAccessTokenRequest (_callerTimeout : ℕ) : RequestSpec :=
  ⟨"https://oauth2.googleapis.com/token", 10⟩

/-- gemini.rs line 35: the production Antigravity endpoint. -/
def ANTIGRAVITY_ENDPOINT_PROD : String :=
  "https://cloudcode-pa.googleapis.com"

/-- gemini.rs lines 127-150: `load_code_assist` uses the caller timeout. -/
def loadCodeAssistRequest (callerTimeout : ℕ) : RequestSpec :=
  ⟨ANTIGRAVITY_ENDPOINT_PROD ++ "/v1internal:loadCodeAssist", callerTimeout⟩

/-- gemini.rs lines 184-213: `fetch_available_models` uses the caller timeout. -/
def fetchAvailableModelsRequest (callerTimeout : ℕ) : RequestSpec :=
  ⟨ANTIGRAVITY_ENDPOINT_PROD ++ "/v1internal:fetchAvailableModels", callerTimeout⟩

/-- claude.rs lines 45-57: the single Claude usage call uses the caller timeout. -/
def claudeUsageRequest (callerTimeout : ℕ) : RequestSpec :=
  ⟨"https://api.anthropic.com/api/oauth/usage", callerTimeout⟩

/-- codex.rs lines 61-70: the single Codex usage call uses the caller timeout. -/
def codexUsageRequest (callerTimeout : ℕ) : RequestSpec :=
  ⟨"https://chatgpt.com/backend-api/wham/usage", callerTimeout⟩

/-- copilot.rs lines 31-42: the GitHub user call uses the caller timeout. -/
def copilotUserRequest (callerTimeout : ℕ) : RequestSpec :=
  ⟨"https://api.github.com/user", callerTimeout⟩

/-- copilot.rs lines 83-98: the billing call uses the caller timeout. -/
def copilotBillingRequest (user : String) (callerTimeout : ℕ) : RequestSpec :=
  ⟨"https://api.github.com/users/" ++ user ++ "/settings/billing/premium_request/usage",
    callerTimeout⟩

/-- copilot.rs lines 187-199: the copilot_internal user call uses the caller
timeout. -/
def copilotInternalRequest (callerTimeout : ℕ) : RequestSpec :=
  ⟨"https://api.github.com/copilot_internal/user", callerTimeout⟩

/-- C4 counterexample: with a caller-supplied timeout of 5 seconds, the Gemini
OAuth token-refresh call is configured with a 10-second timeout, not the
caller's 5 seconds. -/
theorem gemini_refresh_fixed_timeout_counterexample :
    (refreshAccessTokenRequest 5).timeoutSecs = 10 ∧
      ¬ (refreshAccessTokenRequest 5).timeoutSecs = 5 := by
  exact ⟨rfl, by decide⟩

/-- C4 amended: every HTTP call of every provider applies the caller-supplied
timeout per call — except the Gemini OAuth token-refresh call, which always
uses a fixed 10-second timeout regardless of the caller-supplied value. -/
theorem per_call_timeouts (t : ℕ) :
    (loadCodeAssistRequest t).timeoutSecs = t ∧
    (fetchAvailableModelsRequest t).timeoutSecs = t ∧
    (claudeUsageRequest t).timeoutSecs = t ∧
    (codexUsageRequest t).timeoutSecs = t ∧
    (copilotUserRequest t).timeoutSecs = t ∧
    (∀ u : String, (copilotBillingRequest u t).timeoutSecs = t) ∧
    (copilotInternalRequest t).timeoutSecs = t ∧
    (refreshAccessTokenRequest t).timeoutSecs = 10 :=
  ⟨rfl, rfl, rfl, rfl, rfl, fun _ => rfl, rfl, rfl⟩

/-! ## Credential data model (src/auth.rs) and error taxonomy (src/error.rs) -/

/-- Struct `OAuthToken` from auth.rs. -/
structure OAuthToken where
  token_type : String
  access : String
  refresh : Option String
  expires : Option ℤ
  account_id : Option String
deriving DecidableEq, Repr

/-- Struct `OpenCodeAuth` from auth.rs. -/
structure OpenCodeAuth where
  google : Option OAuthToken
  anthropic : Option OAuthToken
  openai : Option OAuthToken
  github_copilot : Option OAuthToken
deriving DecidableEq, Repr

/-- Struct `AntigravityAccount` from auth.rs (the fields the Gemini provider reads). -/
structure AntigravityAccount where
  email : String
  refresh_token : String
  project_id : Option String
  managed_project_id : Option String
deriving DecidableEq, Repr

/-- Struct `AntigravityAccounts` from auth.rs. -/
structure AntigravityAccounts where
  version : ℤ
  accounts : List AntigravityAccount
  active_index : ℕ
deriving DecidableEq, Repr

/-- Error type `QuotaError` from error.rs (transport errors collapsed to their messages). -/
inductive QuotaError where
  | AuthFileNotFound (msg : String)
  | ProviderNotConfigured (msg : String)
  | ApiError (msg : String)
  | TokenRefreshError (msg : String)
  | NetworkError (msg : String)
  | JsonError (msg : String)
  | IoError (msg : String)
deriving DecidableEq, Repr

/-- auth.rs lines 140-156: `is_provider_configured`. The two credential-file
reads are external collaborators, passed in as their results; `.ok()`
followed by `.flatten()` turns a read error into `None`. -/
def is_provider_configured (readOpencode : Except QuotaError (Option OpenCodeAuth))
    (readAntigravity : Except QuotaError (Option AntigravityAccounts))
    (provider : String) : Except QuotaError Bool :=
  let opencode_auth : Option OpenCodeAuth :=
    match readOpencode with
    | .ok v => v
    | .error _ => none
  let antigravity_accounts : Option AntigravityAccounts :=
    match readAntigravity with
    | .ok v => v
    | .error _ => none
  if provider = "gemini" then
    .ok antigravity_accounts.isSome
  else if provider = "claude" then
    .ok ((opencode_auth.map (fun a => a.anthropic.isSome)).getD false)
  else if provider = "codex" then
    .ok ((opencode_auth.map (fun a => a.openai.isSome)).getD false)
  else if provider = "copilot" then
    .ok ((opencode_auth.map (fun a => a.github_copilot.isSome)).getD false)
  else
    .ok false

/-- gemini.rs lines 375-379: `GeminiProvider::is_configured` —
`is_provider_configured("gemini").unwrap_or(false)`. -/
def gemini_is_configured (readOpencode : Except QuotaError (Option OpenCodeAuth))
    (readAntigravity : Except QuotaError (Option AntigravityAccounts)) : Bool :=
  match is_provider_configured readOpencode readAntigravity "gemini" with
  | .ok b => b
  | .error _ => false

/-- Struct `GeminiAccountData` from providers/mod.rs. -/
structure GeminiAccountData where
  email : String
  is_active : Bool
  models : List GeminiModelQuota
deriving DecidableEq, Repr

/-- Struct `GeminiData` from providers/mod.rs. -/
structure GeminiData where
  accounts : List GeminiAccountData
deriving DecidableEq, Repr

/-! ## GeminiProvider::fetch (gemini.rs lines 381-434)

The per-account network pipeline `fetch_account_quota` (token refresh →
project resolution → catalog fetch → aggregation) is abstracted as a
deterministic per-account result `fetchAccount account is_active`. -/

/-- gemini.rs lines 399-425: the per-account loop — a failing account is
logged and skipped, a succeeding account's data is pushed in order;
`is_active` is `idx == active_index`. -/
def geminiAccountLoop (fetchAccount : AntigravityAccount → Bool → Except QuotaError GeminiAccountData)
    (activeIndex : ℕ) (accounts : List AntigravityAccount) : List GeminiAccountData :=
  (accounts.enum).foldl
    (fun acc x =>
      match fetchAccount x.2 (x.1 == activeIndex) with
      | .ok d => acc ++ [d]
      | .error _ => acc)
    []

/-- gemini.rs lines 381-434: `GeminiProvider::fetch`. -/
def geminiFetch (readAntigravity : Except QuotaError (Option AntigravityAccounts))
    (fetchAccount : AntigravityAccount → Bool → Except QuotaError GeminiAccountData) :
    Except QuotaError GeminiData :=
  match readAntigravity with
  | .error e => .error e
  | .ok none => .error (.ProviderNotConfigured "gemini (no antigravity accounts found)")
  | .ok (some antigravity) =>
      if antigravity.accounts.isEmpty then
        .error (.ProviderNotConfigured "gemini (no accounts in antigravity file)")
      else
        let account_data :=
          geminiAccountLoop fetchAccount antigravity.active_index antigravity.accounts
        if account_data.isEmpty then
          .error (.ApiError "Failed to fetch quota for any Gemini account")
        else
          .ok ⟨account_data⟩

/-- Rust-style `Result::ok()`: drop the error. -/
def exceptToOption {ε α : Type} : Except ε α → Option α
  | .ok a => some a
  | .error _ => none

lemma geminiAccountLoop_foldl
    (fetchAccount : AntigravityAccount → Bool → Except QuotaError GeminiAccountData)
    (activeIndex : ℕ) (l : List (ℕ × AntigravityAccount)) :
    ∀ acc : List GeminiAccountData,
      l.foldl
        (fun a x =>
          match fetchAccount x.2 (x.1 == activeIndex) with
          | .ok d => a ++ [d]
          | .error _ => a) acc =
        acc ++ l.filterMap (fun x => exceptToOption (fetchAccount x.2 (x.1 == activeIndex))) := by
  induction l with
  | nil => intro acc; simp
  | cons x rest ih =>
      intro acc
      rw [List.foldl_cons, List.filterMap_cons]
      cases hx : fetchAccount x.2 (x.1 == activeIndex) with
      | ok d => simp [hx, ih, exceptToOption]
      | error e => simp [hx, ih, exceptToOption]

lemma geminiAccountLoop_eq
    (fetchAccount : AntigravityAccount → Bool → Except QuotaError GeminiAccountData)
    (activeIndex : ℕ) (accounts : List AntigravityAccount) :
    geminiAccountLoop fetchAccount activeIndex accounts =
      accounts.enum.filterMap
        (fun x => exceptToOption (fetchAccount x.2 (x.1 == activeIndex))) := by
  unfold geminiAccountLoop
  rw [geminiAccountLoop_foldl]
  simp

/-- C6: in the Gemini multi-account fetch, one account's failure does not
abort the others — the loop keeps exactly the accounts that succeeded, in
their original order; if every account fails the whole fetch returns the
aggregate ApiError, otherwise it returns the snapshot of the successes. -/
theorem gemini_account_isolation (anti : AntigravityAccounts)
    (fetchAccount : AntigravityAccount → Bool → Except QuotaError GeminiAccountData)
    (hne : anti.accounts ≠ []) :
    ((∀ x ∈ anti.accounts.enum,
        ∃ e, fetchAccount x.2 (x.1 == anti.active_index) = .error e) →
      geminiFetch (.ok (some anti)) fetchAccount =
        .error (.ApiError "Failed to fetch quota for any Gemini account")) ∧
    (anti.accounts.enum.filterMap
        (fun x => exceptToOption (fetchAccount x.2 (x.1 == anti.active_index))) ≠ [] →
      geminiFetch (.ok (some anti)) fetchAccount =
        .ok ⟨anti.accounts.enum.filterMap
          (fun x => exceptToOption (fetchAccount x.2 (x.1 == anti.active_index)))⟩) := by
  have hApp : anti.accounts.isEmpty = false := by
    cases h : anti.accounts with
    | nil => exact absurd h hne
    | cons a t => rfl
  constructor
  · intro hall
    have hnil : anti.accounts.enum.filterMap
        (fun x => exceptToOption (fetchAccount x.2 (x.1 == anti.active_index))) = [] := by
      rw [List.filterMap_eq_nil_iff]
      intro x hx
      rcases hall x hx with ⟨e, he⟩
      rw [he]
      rfl
    simp [geminiFetch, hApp, geminiAccountLoop_eq, hnil]
  · intro hsome
    have hAppL : (anti.accounts.enum.filterMap
        (fun x => exceptToOption (fetchAccount x.2 (x.1 == anti.active_index)))).isEmpty
          = false := by
      cases h : anti.accounts.enum.filterMap
          (fun x => exceptToOption (fetchAccount x.2 (x.1 == anti.active_index))) with
      | nil => exact absurd h hsome
      | cons a t => rfl
    simp [geminiFetch, hApp, geminiAccountLoop_eq, hAppL]

/-- First concrete Antigravity account, whose fetch fails. -/
def witAccountA : AntigravityAccount :=
  ⟨"a@example.com", "tokA", none, none⟩

/-- Second concrete Antigravity account, whose fetch succeeds. -/
def witAccountB : AntigravityAccount :=
  ⟨"b@example.com", "tokB", none, none⟩

/-- A two-account Antigravity credentials file. -/
def witAnti : AntigravityAccounts :=
  ⟨1, [witAccountA, witAccountB], 0⟩

/-- Deterministic per-account pipeline: fails for account A, succeeds for
everything else. -/
def witFetchAccount : AntigravityAccount → Bool → Except QuotaError GeminiAccountData :=
  fun a active =>
    if a.email = "a@example.com" then .error (.TokenRefreshError "bad refresh token")
    else .ok ⟨a.email, active, []⟩

/-- Witness for C6: with account A failing and account B succeeding, the
fetch returns exactly account B's snapshot. -/
theorem gemini_account_isolation_witness :
    geminiFetch (.ok (some witAnti)) witFetchAccount =
      .ok ⟨[⟨"b@example.com", false, []⟩]⟩ :=
  (gemini_account_isolation witAnti witFetchAccount (by decide)).2 (by decide)

/-- An Antigravity credentials file that parses but contains no accounts. -/
def witAntiEmpty : AntigravityAccounts :=
  ⟨1, [], 0⟩

/-- C10: is_configured answers true whenever an antigravity-accounts file
exists and parses — even with an empty accounts list — while fetch then
rejects with ProviderNotConfigured. -/
theorem gemini_configured_but_fetch_rejects
    (readOpencode : Except QuotaError (Option OpenCodeAuth))
    (anti : AntigravityAccounts)
    (fetchAccount : AntigravityAccount → Bool → Except QuotaError GeminiAccountData)
    (h : anti.accounts = []) :
    gemini_is_configured readOpencode (.ok (some anti)) = true ∧
      geminiFetch (.ok (some anti)) fetchAccount =
        .error (.ProviderNotConfigured "gemini (no accounts in antigravity file)") := by
  constructor
  · rfl
  · simp [geminiFetch, h]

/-- Witness for C10 at the concrete empty-accounts file. -/
theorem gemini_configured_but_fetch_rejects_witness :
    gemini_is_configured (.ok none) (.ok (some witAntiEmpty)) = true ∧
      geminiFetch (.ok (some witAntiEmpty)) witFetchAccount =
        .error (.ProviderNotConfigured "gemini (no accounts in antigravity file)") :=
  gemini_configured_but_fetch_rejects (.ok none) witAntiEmpty witFetchAccount rfl
